import Mathlib

/-!
# Verification of the Shadowrun 2E combat core (foundry-sr2)

Shallow embedding of the repository's combat turn scheduler and dice
resolution engine:

* `rollDice` — `SR2Actor.rollDice` from `src/scripts/actor/actor.js`
  (exploding-d6 success counting).  Randomness is modelled by passing, for
  each die index, the sequence of faces that die draws (first draw plus the
  exploding re-draws).  JavaScript `Number(x) || d` coercion of the numeric
  arguments is modelled by `Option Int` inputs (`none` = `NaN`).
* `calculateActionPhases` — `SR2InitiativeTracker._calculateActionPhases`
  from `src/scripts/initiative-tracker.js` (the unbounded while loop).
* `calculateActionPhasesSafe` — the bounded `_calculateActionPhases`
  variant on the character sheet (`src/unnamed/part_005`).
* `Combatant` / `Tracker` — the tracker's mutable state, with the handler
  methods `_onResetCombat`, `_onEditInitiative`, `_onRemoveCombatant`,
  `_onNextPhase`, `_rollInitiativeForCombatant` as state-passing functions.
-/

namespace SR2

/-! ## Dice engine (`actor.js` `rollDice`) -/

/-- Result record returned by `rollDice`:
`{ successes, ones, isCriticalFailure }`. -/
structure RollResult where
  successes : Nat
  ones : Nat
  isCriticalFailure : Bool
  deriving Repr, DecidableEq

/-- JavaScript `Number(x) || dflt`: `NaN` (modelled by `none`) and `0` both
coerce to the default; any other integer passes through. -/
def coerceNum (x : Option Int) (dflt : Int) : Int :=
  match x with
  | none => dflt
  | some n => if n = 0 then dflt else n

/-- The coerced dice pool: `dicePool = Number(dicePool) || 1`. -/
def dicePoolOf (dicePoolIn : Option Int) : Int :=
  coerceNum dicePoolIn 1

/-- The number of loop iterations of `for (let i = 0; i < dicePool; i++)`:
zero when the coerced pool is negative. -/
def diceRolledCount (dicePoolIn : Option Int) : Nat :=
  (dicePoolOf dicePoolIn).toNat

/-- One die's execution trace: the first draw followed by the exploding
re-draws.  The source keeps re-drawing while the latest draw is a 6, so a
trace is a run of 6s ended by a single non-6 face in 1..5. -/
inductive IsDieTrace : List Nat → Prop
  | stop (d : Nat) : 1 ≤ d → d ≤ 6 → d ≠ 6 → IsDieTrace [d]
  | explode (l : List Nat) : IsDieTrace l → IsDieTrace (6 :: l)

/-- `rollDice(dicePool, targetNumber)` from `actor.js`.  `draw i` is the
trace of die `i` (its first draw and all exploded re-draws); the loop body
adds one success when the die total meets the target and one "one" when the
first draw is 1.  The chat-message side effect is omitted. -/
def rollDice (dicePoolIn targetIn : Option Int) (draw : Nat → List Nat) :
    RollResult :=
  let dicePool : Int := coerceNum dicePoolIn 1
  let targetNumber : Int := coerceNum targetIn 4
  let counts : Nat × Nat :=
    (List.range dicePool.toNat).foldl
      (fun acc i =>
        let dieTotal : Nat := (draw i).sum
        (acc.1 + (if targetNumber ≤ (dieTotal : Int) then 1 else 0),
         acc.2 + (if (draw i).headD 0 = 1 then 1 else 0)))
      (0, 0)
  { successes := counts.1
    ones := counts.2
    isCriticalFailure := decide ((counts.2 : Int) = dicePool ∧ counts.1 = 0) }

/-! ## Phase calculators -/

/-- The body of the `while (currentPhase > 0)` loop shared by both
`_calculateActionPhases` implementations, with explicit fuel: each
iteration emits the current value and subtracts 10. -/
def calcPhasesAux : Nat → Int → List Int
  | 0, _ => []
  | fuel + 1, cur => if 0 < cur then cur :: calcPhasesAux fuel (cur - 10) else []

/-- `_calculateActionPhases` from `initiative-tracker.js`: unbounded
`while (currentPhase > 0) { phases.push(currentPhase); currentPhase -= 10 }`.
Fuel `n.toNat` always suffices: the loop runs `⌈n/10⌉ ≤ n` times for
positive `n` and zero times otherwise. -/
def calculateActionPhases (n : Int) : List Int :=
  calcPhasesAux n.toNat n

/-- `_calculateActionPhases` from the character sheet (`part_005`): input
validation (a non-number/NaN input, modelled by `none`, throws and is
caught, returning the fallback `[Math.max(1, Math.floor(score) || 1)] = [1]`),
clamping of scores below 1 to 1, the same loop bounded at
`maxIterations = 20`, and a fallback single phase if the loop produced
nothing. -/
def calculateActionPhasesSafe (x : Option Int) : List Int :=
  match x with
  | none => [1]
  | some n0 =>
    let n : Int := if n0 < 1 then 1 else n0
    let phases : List Int := calcPhasesAux 20 n
    if phases = [] then [max 1 n] else phases

/-! ## Combatant and tracker state (`initiative-tracker.js`) -/

/-- One roster entry of the tracker.  `actionPhases` is `none` while the
JavaScript field is still `undefined` (a freshly added combatant has no
`actionPhases` property at all); presentation-only fields (`name`, `img`,
`tokenId`, `actorId`) are omitted. -/
structure Combatant where
  id : Nat
  initiative : Int
  initiativeDice : Nat
  reaction : Int
  hasRolled : Bool
  actionPhases : Option (List Int)
  isNPC : Bool
  deriving Repr, DecidableEq

/-- The tracker's mutable state: `this.combatants`, `this.currentPhase`,
`this.currentTurn`, `this.isActive`. -/
structure Tracker where
  combatants : List Combatant
  currentPhase : Int
  currentTurn : Nat
  isActive : Bool
  deriving Repr, DecidableEq

/-- `getCurrentInitiative(combatant)`: 0 before rolling; with an
`actionPhases` array, the value at index `currentPhase - 1` when that index
is in range, else 0; without the array, the backwards-compatibility formula
`Math.max(0, initiative - (currentPhase - 1) * 10)`.  `currentPhase ≥ 1` in
every reachable state; for a phase below 1 the source would read
`actionPhases[-1] = undefined`, which every caller treats as 0, so the
out-of-range guard here also covers a negative index. -/
def getCurrentInitiative (t : Tracker) (c : Combatant) : Int :=
  if c.hasRolled = false then 0
  else
    match c.actionPhases with
    | some phases =>
      if 1 ≤ t.currentPhase ∧ t.currentPhase - 1 < (phases.length : Int) then
        phases.getD (t.currentPhase - 1).toNat 0
      else 0
    | none => max 0 (c.initiative - (t.currentPhase - 1) * 10)

/-- Stable insertion of `x` into `l`: `x` goes before the first element `y`
with `le x y`. -/
def insertSorted (le : α → α → Bool) (x : α) : List α → List α
  | [] => [x]
  | y :: ys => if le x y then x :: y :: ys else y :: insertSorted le x ys

/-- Stable insertion sort, modelling JavaScript `Array.prototype.sort`
(stable in all modern engines) under a comparator that induces the total
preorder `le`. -/
def sortBy (le : α → α → Bool) : List α → List α
  | [] => []
  | x :: xs => insertSorted le x (sortBy le xs)

/-- `_getActiveCombatantsForPhase()`: the combatants whose current
initiative for this phase is positive, sorted descending by that value
(comparator `(a, b) => getCurrentInitiative(b) - getCurrentInitiative(a)`). -/
def activeCombatantsForPhase (t : Tracker) : List Combatant :=
  sortBy (fun a b => getCurrentInitiative t b ≤ getCurrentInitiative t a)
    (t.combatants.filter (fun c => 0 < getCurrentInitiative t c))

/-- `Math.max(...this.combatants.map(c => c.initiative || 0))` — the
largest `initiative` on the roster (`x || 0` is the identity on integer
`initiative` values).  The `[]` case is a placeholder: `_getMaximumPhases`
only evaluates this on a non-empty roster. -/
def maxInitiative (t : Tracker) : Int :=
  match t.combatants.map (fun c => c.initiative) with
  | [] => 0
  | x :: xs => xs.foldl max x

/-- `_getMaximumPhases()`: 1 for an empty roster, else
`Math.ceil(maxInitiative / 10)`.  For the positive divisor 10 the ceiling
is `(m + 9) / 10` in Lean's (floor-like) `Int` division. -/
def maximumPhases (t : Tracker) : Int :=
  if t.combatants = [] then 1 else (maxInitiative t + 9) / 10

/-- The round-level chat announcements issued by `_onNextPhase` (the
trailing `_announceCurrentTurn()` render call is display-only and omitted). -/
inductive RoundAnnouncement where
  | newRound
  | emptyPhase
  deriving Repr, DecidableEq

/-- `_onNextPhase()`: no-op unless active; increment `currentPhase`, reset
`currentTurn` to 0; if nobody is active in the new phase, either roll over
to phase 1 with a new-round message (when the new phase exceeds
`_getMaximumPhases()`) or stay on the empty phase with a "no combatants act"
message. -/
def nextPhase (t : Tracker) : Tracker × Option RoundAnnouncement :=
  if t.isActive = false then (t, none)
  else
    let t1 : Tracker :=
      { t with currentPhase := t.currentPhase + 1, currentTurn := 0 }
    if (activeCombatantsForPhase t1).length = 0 then
      if maximumPhases t1 < t1.currentPhase then
        ({ t1 with currentPhase := 1 }, some RoundAnnouncement.newRound)
      else (t1, some RoundAnnouncement.emptyPhase)
    else (t1, none)

/-- `_onResetCombat()`: back to setup (`isActive = false`,
`currentPhase = 1`, `currentTurn = 0`) and, per combatant, only
`initiative = 0` and `hasRolled = false` — the source does not touch
`actionPhases`. -/
def resetCombat (t : Tracker) : Tracker :=
  { t with
    isActive := false
    currentPhase := 1
    currentTurn := 0
    combatants :=
      t.combatants.map (fun c => { c with initiative := 0, hasRolled := false }) }

/-- Mutate the first combatant with the given id (the source's
`combatants.find(...)` followed by in-place mutation). -/
def updateFirst (cid : Nat) (f : Combatant → Combatant) :
    List Combatant → List Combatant
  | [] => []
  | c :: cs => if c.id = cid then f c :: cs else c :: updateFirst cid f cs

/-- `_onEditInitiative(event)`: `parseInt(value) || 0` (modelled by
`parsed.getD 0` — `none` is `NaN`), then set `initiative` to the new value
and `hasRolled = true` on the matching combatant.  The source recomputes
nothing else: `actionPhases` is left as it was. -/
def editInitiative (t : Tracker) (cid : Nat) (parsed : Option Int) : Tracker :=
  let newValue : Int := parsed.getD 0
  { t with
    combatants :=
      updateFirst cid
        (fun c => { c with initiative := newValue, hasRolled := true })
        t.combatants }

/-- `_onRemoveCombatant(event)`: no-op when the id is unknown, when a
non-GM targets an NPC, or when the NPC confirm dialog is declined;
otherwise filter the combatant out and reset `currentTurn` to 0 when it is
`≥ combatants.length` (the new full roster length — not the length of the
phase's eligible list). -/
def removeCombatant (t : Tracker) (cid : Nat) (isGM confirmed : Bool) :
    Tracker :=
  match t.combatants.find? (fun c => c.id = cid) with
  | none => t
  | some c =>
    if c.isNPC ∧ isGM = false then t
    else if c.isNPC ∧ confirmed = false then t
    else
      let cs := t.combatants.filter (fun x => ¬ x.id = cid)
      { t with
        combatants := cs
        currentTurn := if cs.length ≤ t.currentTurn then 0 else t.currentTurn }

/-- `_rollInitiativeForCombatant(combatant)`: `draws` are the faces of the
`initiativeDice` plain d6 (no exploding); their sum plus `reaction` becomes
`initiative`, `actionPhases` is recomputed from that total, and `hasRolled`
is set.  The chat message is omitted. -/
def rollInitiativeForCombatant (c : Combatant) (draws : List Nat) :
    Combatant :=
  let total : Int := (draws.sum : Int) + c.reaction
  { c with
    initiative := total
    actionPhases := some (calculateActionPhases total)
    hasRolled := true }

/-- The §3 roster invariant as the spec states it: `hasRolled` iff the
combatant's phase list is non-empty and its rolled total is positive
(an absent `actionPhases` field counts as the empty sequence). -/
def CombatantInvariant (c : Combatant) : Prop :=
  c.hasRolled = true ↔ (c.actionPhases.getD [] ≠ [] ∧ 0 < c.initiative)

instance (c : Combatant) : Decidable (CombatantInvariant c) := by
  unfold CombatantInvariant; infer_instance

/-- A setup-mode roster with one freshly added, never-rolled combatant, used
to exercise `_onEditInitiative`. -/
def editExampleTracker : Tracker :=
  { combatants :=
      [{ id := 1, initiative := 0, initiativeDice := 1, reaction := 0,
         hasRolled := false, actionPhases := none, isNPC := false }],
    currentPhase := 1, currentTurn := 0, isActive := false }

/-- A roster whose single combatant has rolled (non-empty `actionPhases`),
used to exercise `_onResetCombat`. -/
def resetExampleTracker : Tracker :=
  { combatants :=
      [{ id := 1, initiative := 5, initiativeDice := 1, reaction := 0,
         hasRolled := true, actionPhases := some [5], isNPC := false }],
    currentPhase := 1, currentTurn := 0, isActive := false }

/-- An active combat on phase 2, turn 1: combatants with totals 25, 15 and 5
(so the eligible list for phase 2 is the 25- and 15-combatants, and the turn
cursor points at the second of them).  Reachable from setup by rolling all
three, starting combat, advancing a turn, a phase, and a turn.  Used to
exercise `_onRemoveCombatant`. -/
def removeExampleTracker : Tracker :=
  { combatants :=
      [{ id := 1, initiative := 25, initiativeDice := 1, reaction := 0,
         hasRolled := true, actionPhases := some [25, 15, 5], isNPC := false },
       { id := 2, initiative := 15, initiativeDice := 1, reaction := 0,
         hasRolled := true, actionPhases := some [15, 5], isNPC := false },
       { id := 3, initiative := 5, initiativeDice := 1, reaction := 0,
         hasRolled := true, actionPhases := some [5], isNPC := false }],
    currentPhase := 2, currentTurn := 1, isActive := true }

/-- An active combat on phase 1 whose single combatant acts only on phase 1,
used to exercise the round rollover of `_onNextPhase`. -/
def nextPhaseExampleTracker : Tracker :=
  { combatants :=
      [{ id := 1, initiative := 5, initiativeDice := 1, reaction := 0,
         hasRolled := true, actionPhases := some [5], isNPC := false }],
    currentPhase := 1, currentTurn := 0, isActive := true }

/-! ## Helper lemmas -/

/-- The dice-pool fold counts, in its two components, the dice meeting the
target and the dice whose first draw is a 1. -/
theorem rollCounts_spec (tn : Int) (draw : Nat → List Nat) :
    ∀ (l : List Nat) (a b : Nat),
      (l.foldl (fun acc i =>
          (acc.1 + (if tn ≤ (((draw i).sum : Nat) : Int) then 1 else 0),
           acc.2 + (if (draw i).headD 0 = 1 then 1 else 0))) (a, b))
      = (a + (l.filter (fun i => decide (tn ≤ (((draw i).sum : Nat) : Int)))).length,
         b + (l.filter (fun i => decide ((draw i).headD 0 = 1))).length) := by
  intro l
  induction l with
  | nil => intro a b; simp
  | cons x xs ih =>
    intro a b
    rw [List.foldl_cons, ih, List.filter_cons, List.filter_cons]
    simp only [decide_eq_true_eq, Prod.mk.injEq]
    by_cases h1 : tn ≤ (((draw x).sum : Nat) : Int) <;>
      by_cases h2 : (draw x).headD 0 = 1 <;>
        simp only [h1, h2, if_true, if_false, List.length_cons,
          eq_self_iff_true] <;>
      omega

/-- An execution trace of one die is non-empty. -/
theorem IsDieTrace.ne_nil {l : List Nat} (h : IsDieTrace l) : l ≠ [] := by
  cases h <;> simp

/-- Length of the fuelled phase loop: `min fuel ⌈cur/10⌉`. -/
theorem calcPhasesAux_length :
    ∀ (k : Nat) (cur : Int),
      (calcPhasesAux k cur).length = min k ((cur + 9) / 10).toNat := by
  intro k
  induction k with
  | zero => intro cur; simp [calcPhasesAux]
  | succ k ih =>
    intro cur
    by_cases h : 0 < cur
    · simp only [calcPhasesAux]
      rw [if_pos h]
      simp only [List.length_cons, ih]
      omega
    · simp only [calcPhasesAux]
      rw [if_neg h]
      simp only [List.length_nil]
      omega

/-- Element `i` of the fuelled phase loop is `cur - 10 * i`. -/
theorem calcPhasesAux_get :
    ∀ (k : Nat) (cur : Int) (i : Nat) (h : i < (calcPhasesAux k cur).length),
      (calcPhasesAux k cur).get ⟨i, h⟩ = cur - 10 * i := by
  intro k
  induction k with
  | zero => intro cur i h; simp [calcPhasesAux] at h
  | succ k ih =>
    intro cur i h
    by_cases hc : 0 < cur
    · have heq : calcPhasesAux (k + 1) cur = cur :: calcPhasesAux k (cur - 10) := by
        simp only [calcPhasesAux]
        rw [if_pos hc]
      rw [List.get_of_eq heq]
      cases i with
      | zero => simp
      | succ j =>
        have hj : j < (calcPhasesAux k (cur - 10)).length := by
          have h' := h
          rw [heq] at h'
          simpa using h'
        simp only [List.get_cons_succ]
        rw [ih (cur - 10) j hj]
        push_cast
        ring
    · simp only [calcPhasesAux] at h
      rw [if_neg hc] at h
      simp at h

/-- The tracker's phase calculator has exactly `⌈n/10⌉` entries (so it is
empty for non-positive `n`): the fuel `n.toNat` never truncates the loop. -/
theorem calculateActionPhases_length (n : Int) :
    (calculateActionPhases n).length = ((n + 9) / 10).toNat := by
  rw [calculateActionPhases, calcPhasesAux_length]
  omega

/-- Element `i` of the tracker's phase list is `n - 10 * i`. -/
theorem calculateActionPhases_get (n : Int) (i : Nat)
    (h : i < (calculateActionPhases n).length) :
    (calculateActionPhases n).get ⟨i, h⟩ = n - 10 * i :=
  calcPhasesAux_get n.toNat n i h

/-- Every list member is reached by `get`. -/
theorem calculateActionPhases_mem {n x : Int}
    (h : x ∈ calculateActionPhases n) :
    ∃ i : Nat, i < (calculateActionPhases n).length ∧ x = n - 10 * i := by
  obtain ⟨⟨i, hi⟩, hget⟩ := List.mem_iff_get.mp h
  exact ⟨i, hi, by rw [← hget, calculateActionPhases_get]⟩

/-- Dice faces in 1..6 bound the sum of a pool of `l.length` plain d6:
`l.length ≤ sum ≤ 6 * l.length`. -/
theorem sum_faces_bounds :
    ∀ (l : List Nat), (∀ d ∈ l, 1 ≤ d ∧ d ≤ 6) →
      l.length ≤ l.sum ∧ l.sum ≤ 6 * l.length := by
  intro l
  induction l with
  | nil => intro _; simp
  | cons x xs ih =>
    intro h
    have hx := h x (by simp)
    have hxs := ih (fun d hd => h d (by simp [hd]))
    simp only [List.length_cons, List.sum_cons]
    omega

/-- Insertion keeps one more element than the input. -/
theorem insertSorted_length (le : α → α → Bool) (x : α) :
    ∀ l : List α, (insertSorted le x l).length = l.length + 1 := by
  intro l
  induction l with
  | nil => simp [insertSorted]
  | cons y ys ih =>
    by_cases h : le x y <;> simp [insertSorted, h, ih]

/-- The stable sort is a length-preserving permutation-like operation. -/
theorem sortBy_length (le : α → α → Bool) :
    ∀ l : List α, (sortBy le l).length = l.length := by
  intro l
  induction l with
  | nil => rfl
  | cons x xs ih => simp [sortBy, insertSorted_length, ih]

/-- The initial accumulator of `foldl max` never exceeds the result. -/
theorem le_foldl_max : ∀ (xs : List Int) (a : Int), a ≤ xs.foldl max a := by
  intro xs
  induction xs with
  | nil => intro a; simp
  | cons x xs ih =>
    intro a
    calc a ≤ max a x := le_max_left a x
    _ ≤ xs.foldl max (max a x) := ih (max a x)

/-- Every list element is bounded by `foldl max`. -/
theorem mem_le_foldl_max :
    ∀ (xs : List Int) (a : Int), ∀ x ∈ xs, x ≤ xs.foldl max a := by
  intro xs
  induction xs with
  | nil => intro a x hx; simp at hx
  | cons y ys ih =>
    intro a x hx
    rcases List.mem_cons.mp hx with rfl | hx
    · calc x ≤ max a x := le_max_right a x
      _ ≤ ys.foldl max (max a x) := le_foldl_max ys (max a x)
    · exact ih (max a y) x hx

/-- `foldl max` returns its seed or one of the list elements. -/
theorem foldl_max_mem :
    ∀ (xs : List Int) (a : Int), xs.foldl max a = a ∨ xs.foldl max a ∈ xs := by
  intro xs
  induction xs with
  | nil => intro a; simp
  | cons y ys ih =>
    intro a
    rcases ih (max a y) with h | h
    · rcases max_choice a y with hm | hm
      · left; rw [List.foldl_cons, h, hm]
      · right; rw [List.foldl_cons, h, hm]; simp
    · right; simp [h]

/-! ## Claim theorems -/

/-- C3: for every integer `n ≥ 1`, `_calculateActionPhases` returns exactly
the strictly descending sequence of the positive values `n - 10k`
(`k = 0, 1, 2, …`): element `i` is `n - 10i`, the length is `⌈n/10⌉`
(`(n + 9) / 10` is that ceiling: `(n + 9) / 10 ≤ k ↔ n ≤ 10k`), the last
element lies in `1..10`, and every element is positive and congruent to `n`
modulo 10; for `n ≤ 0` it returns the empty sequence. -/
theorem calculateActionPhases_C3 (n : Int) :
    (n ≤ 0 → calculateActionPhases n = []) ∧
    (1 ≤ n →
      (calculateActionPhases n).length = ((n + 9) / 10).toNat ∧
      (∀ k : Int, (n + 9) / 10 ≤ k ↔ n ≤ 10 * k) ∧
      (∀ (i : Nat) (h : i < (calculateActionPhases n).length),
        (calculateActionPhases n).get ⟨i, h⟩ = n - 10 * i) ∧
      List.Chain' (fun a b => b < a) (calculateActionPhases n) ∧
      (∀ x ∈ calculateActionPhases n, 0 < x ∧ x % 10 = n % 10) ∧
      (∃ m : Int, (calculateActionPhases n).getLast? = some m ∧
        1 ≤ m ∧ m ≤ 10)) := by
  have hlen := calculateActionPhases_length n
  constructor
  · intro hn
    rw [← List.length_eq_zero, hlen]
    omega
  · intro hn
    refine ⟨hlen, fun k => by omega, fun i h => calculateActionPhases_get n i h,
      ?_, ?_, ?_⟩
    · rw [List.chain'_iff_get]
      intro i hi
      rw [calculateActionPhases_get, calculateActionPhases_get]
      push_cast
      omega
    · intro x hx
      obtain ⟨i, hi, hxe⟩ := calculateActionPhases_mem hx
      rw [hlen] at hi
      subst hxe
      omega
    · have hne : calculateActionPhases n ≠ [] := by
        intro hnil
        rw [hnil] at hlen
        simp only [List.length_nil] at hlen
        omega
      refine ⟨(calculateActionPhases n).getLast hne,
        List.getLast?_eq_getLast _ hne, ?_⟩
      have hgl :
          (calculateActionPhases n).getLast hne
            = n - 10 * (((calculateActionPhases n).length - 1 : Nat) : Int) := by
        rw [List.getLast_eq_get]
        exact calculateActionPhases_get n _ _
      rw [hgl, hlen]
      omega

/-- Witness for C3 at `n = 27` (`27 → [27, 17, 7]`): length `⌈27/10⌉ = 3`
and strict descent, obtained from the theorem with its hypothesis
discharged. -/
theorem calculateActionPhases_C3_witness :
    (calculateActionPhases 27).length = (((27 : Int) + 9) / 10).toNat ∧
    List.Chain' (fun a b : Int => b < a) (calculateActionPhases 27) := by
  have h := (calculateActionPhases_C3 27).2 (by norm_num)
  exact ⟨h.1, h.2.2.2.1⟩

/-- C9 counterexample: the tracker's `_calculateActionPhases`
(`initiative-tracker.js`) has no 20-iteration bound — an initiative score of
201 makes its loop run 21 times and return 21 phases. -/
theorem calculateActionPhases_C9_counterexample :
    (calculateActionPhases 201).length = 21 ∧
    ¬ (calculateActionPhases 201).length ≤ 20 := by decide

/-- C9 amended: the bounded, fallback-protected phase calculator is the
character-sheet variant (`part_005`): it is total, always returns between 1
and 20 phases, and returns exactly 20 phases (the bound, still a non-empty
result) whenever the score is at least 191; the tracker's own
`_calculateActionPhases` is also total and terminating on every integer
input, but unbounded: it returns exactly `⌈n/10⌉` phases. -/
theorem phaseCalculators_C9_amended (x : Option Int) (n : Int) :
    1 ≤ (calculateActionPhasesSafe x).length ∧
    (calculateActionPhasesSafe x).length ≤ 20 ∧
    (∀ m : Int, x = some m → 191 ≤ m →
      (calculateActionPhasesSafe x).length = 20) ∧
    (calculateActionPhases n).length = ((n + 9) / 10).toNat := by
  have hsafe : 1 ≤ (calculateActionPhasesSafe x).length ∧
      (calculateActionPhasesSafe x).length ≤ 20 ∧
      (∀ m : Int, x = some m → 191 ≤ m →
        (calculateActionPhasesSafe x).length = 20) := by
    cases x with
    | none => simp [calculateActionPhasesSafe]
    | some n0 =>
      have hcl : (1 : Int) ≤ (if n0 < 1 then 1 else n0) := by split <;> omega
      have hlen20 := calcPhasesAux_length 20 (if n0 < 1 then 1 else n0)
      have hpos : 0 < (calcPhasesAux 20 (if n0 < 1 then 1 else n0)).length := by
        rw [hlen20]
        omega
      have hne : calcPhasesAux 20 (if n0 < 1 then 1 else n0) ≠ [] :=
        List.length_pos.mp hpos
      have hx : calculateActionPhasesSafe (some n0)
          = calcPhasesAux 20 (if n0 < 1 then 1 else n0) := by
        simp only [calculateActionPhasesSafe]
        rw [if_neg hne]
      rw [hx, hlen20]
      refine ⟨by omega, by omega, ?_⟩
      intro m hm hm191
      injection hm with hm
      subst hm
      have hcl' : (if n0 < 1 then 1 else n0) = n0 := by
        rw [if_neg (by omega)]
      rw [hcl']
      omega
  exact ⟨hsafe.1, hsafe.2.1, hsafe.2.2, calculateActionPhases_length n⟩

/-- Witness for C9 (amended) at score 200 and tracker input 27: the bounded
calculator returns exactly 20 phases, and the tracker calculator's length is
the ceiling formula. -/
theorem phaseCalculators_C9_amended_witness :
    (calculateActionPhasesSafe (some 200)).length = 20 ∧
    (calculateActionPhases 27).length = (((27 : Int) + 9) / 10).toNat := by
  have h := phaseCalculators_C9_amended (some 200) 27
  exact ⟨h.2.2.1 200 rfl (by norm_num), h.2.2.2⟩

/-- `Number(x) || 1` maps `0` and `NaN` to `1`, so a pool input of 0 and a
pool input of NaN run the engine exactly as a pool of 1 would. -/
theorem rollDice_zero_pool (tnIn : Option Int) (draw : Nat → List Nat) :
    rollDice (some 0) tnIn draw = rollDice (some 1) tnIn draw := rfl

/-- A NaN pool behaves as a pool of 1. -/
theorem rollDice_nan_pool (tnIn : Option Int) (draw : Nat → List Nat) :
    rollDice none tnIn draw = rollDice (some 1) tnIn draw := rfl

/-- A target number of 0 is coerced to the default 4. -/
theorem rollDice_zero_target (pIn : Option Int) (draw : Nat → List Nat) :
    rollDice pIn (some 0) draw = rollDice pIn (some 4) draw := rfl

/-- A NaN target number is coerced to the default 4. -/
theorem rollDice_nan_target (pIn : Option Int) (draw : Nat → List Nat) :
    rollDice pIn none draw = rollDice pIn (some 4) draw := rfl

/-- A strictly negative pool survives the `|| 1` coercion, so the roll loop
runs zero times and the engine reports no successes, no ones and no
critical failure. -/
theorem rollDice_neg_pool (tnIn : Option Int) (draw : Nat → List Nat)
    (p : Int) (hp : p < 0) :
    rollDice (some p) tnIn draw =
      { successes := 0, ones := 0, isCriticalFailure := false } ∧
    diceRolledCount (some p) = 0 := by
  have hp0 : ¬ (p = 0) := by omega
  have hnat : p.toNat = 0 := by omega
  constructor
  · simp only [rollDice, coerceNum, if_neg hp0, hnat, List.range_zero,
      List.foldl_nil]
    simp
    omega
  · simp only [diceRolledCount, dicePoolOf, coerceNum, if_neg hp0, hnat]

/-- The engine's result in closed form: `successes` and `ones` are filter
counts over the die indices, and the critical-failure flag is their
conjunction test against the coerced pool. -/
theorem rollDice_closed_form (p tn : Int) (hp0 : ¬ p = 0) (htn0 : ¬ tn = 0)
    (draw : Nat → List Nat) :
    rollDice (some p) (some tn) draw =
      { successes := ((List.range p.toNat).filter
          (fun i => decide (tn ≤ ((draw i).sum : Int)))).length,
        ones := ((List.range p.toNat).filter
          (fun i => decide ((draw i).headD 0 = 1))).length,
        isCriticalFailure := decide
          (((((List.range p.toNat).filter
              (fun i => decide ((draw i).headD 0 = 1))).length : Nat) : Int) = p ∧
            ((List.range p.toNat).filter
              (fun i => decide (tn ≤ ((draw i).sum : Int)))).length = 0) } := by
  simp only [rollDice, coerceNum, if_neg hp0, if_neg htn0, rollCounts_spec]
  simp
  congr 1
  rw [decide_eq_decide]
  omega

/-- C2: for every pool `p ≥ 1`, target `tn ≥ 2` and every family of die
traces (first draw plus exploding re-draws), the engine reports
`successes ≤ p` and `ones ≤ p`; the critical-failure flag holds exactly
when every die is a first-draw 1 and no die succeeded (so it forces
`successes = 0`); a die contributes one success exactly when the sum of its
whole trace meets the target, and one "one" exactly when its (existing,
since traces are non-empty) first draw is a 1. -/
theorem rollDice_C2 (p tn : Int) (hp : 1 ≤ p) (htn : 2 ≤ tn)
    (draw : Nat → List Nat) (htrace : ∀ i, IsDieTrace (draw i)) :
    (rollDice (some p) (some tn) draw).successes ≤ p.toNat ∧
    (rollDice (some p) (some tn) draw).ones ≤ p.toNat ∧
    ((rollDice (some p) (some tn) draw).isCriticalFailure = true ↔
      (rollDice (some p) (some tn) draw).ones = p.toNat ∧
      (rollDice (some p) (some tn) draw).successes = 0) ∧
    ((rollDice (some p) (some tn) draw).isCriticalFailure = true →
      (rollDice (some p) (some tn) draw).successes = 0) ∧
    (rollDice (some p) (some tn) draw).successes =
      ((List.range p.toNat).filter
        (fun i => decide (tn ≤ ((draw i).sum : Int)))).length ∧
    (rollDice (some p) (some tn) draw).ones =
      ((List.range p.toNat).filter
        (fun i => decide ((draw i).headD 0 = 1))).length ∧
    (∀ i, draw i ≠ []) := by
  have hroll := rollDice_closed_form p tn (by omega) (by omega) draw
  rw [hroll]
  dsimp only
  have hsle : ((List.range p.toNat).filter
      (fun i => decide (tn ≤ ((draw i).sum : Int)))).length ≤ p.toNat := by
    calc ((List.range p.toNat).filter
        (fun i => decide (tn ≤ ((draw i).sum : Int)))).length
        ≤ (List.range p.toNat).length := List.length_filter_le _ _
    _ = p.toNat := List.length_range _
  have hole : ((List.range p.toNat).filter
      (fun i => decide ((draw i).headD 0 = 1))).length ≤ p.toNat := by
    calc ((List.range p.toNat).filter
        (fun i => decide ((draw i).headD 0 = 1))).length
        ≤ (List.range p.toNat).length := List.length_filter_le _ _
    _ = p.toNat := List.length_range _
  refine ⟨hsle, hole, ?_, ?_, rfl, rfl, fun i => (htrace i).ne_nil⟩
  · rw [decide_eq_true_eq]
    omega
  · intro h
    rw [decide_eq_true_eq] at h
    exact h.2

/-- Witness for C2: pool 2, target 4, every die drawing a 6 that explodes
into a 1 (trace `[6, 1]`, total 7 — a success whose first draw is not a 1). -/
theorem rollDice_C2_witness :
    (rollDice (some 2) (some 4) (fun _ => [6, 1])).successes ≤ (2 : Int).toNat ∧
    ((rollDice (some 2) (some 4) (fun _ => [6, 1])).isCriticalFailure = true →
      (rollDice (some 2) (some 4) (fun _ => [6, 1])).successes = 0) := by
  have htrace : ∀ i : Nat, IsDieTrace ((fun _ => [6, 1]) i) := fun _ =>
    IsDieTrace.explode _ (IsDieTrace.stop 1 (by norm_num) (by norm_num)
      (by norm_num))
  have h := rollDice_C2 2 4 (by norm_num) (by norm_num) (fun _ => [6, 1]) htrace
  exact ⟨h.1, h.2.2.2.1⟩

/-- C8 counterexample: `rollDice` does not fail fast on a pool of 0 — the
`Number(dicePool) || 1` coercion silently turns the pool into 1, one die is
drawn (here a 1), and a perfectly normal result (a one-die critical
failure) is returned. -/
theorem rollDice_C8_counterexample :
    rollDice (some 0) (some 4) (fun _ => [1]) =
      { successes := 0, ones := 1, isCriticalFailure := true } ∧
    diceRolledCount (some 0) = 1 := by decide

/-- C8 amended: `rollDice` never signals a contract violation for a
non-positive pool; a pool of 0 (like NaN) is silently coerced to 1 and
rolls exactly one die, while a strictly negative pool rolls zero dice and
returns the normal result `successes = 0, ones = 0,
criticalFailure = false`. -/
theorem rollDice_C8_amended (tnIn : Option Int) (draw : Nat → List Nat)
    (p : Int) (hp : p < 0) :
    rollDice (some 0) tnIn draw = rollDice (some 1) tnIn draw ∧
    diceRolledCount (some 0) = 1 ∧
    rollDice (some p) tnIn draw =
      { successes := 0, ones := 0, isCriticalFailure := false } ∧
    diceRolledCount (some p) = 0 :=
  ⟨rollDice_zero_pool tnIn draw, rfl,
    (rollDice_neg_pool tnIn draw p hp).1, (rollDice_neg_pool tnIn draw p hp).2⟩

/-- Witness for C8 (amended) at pool `-3`, target 4. -/
theorem rollDice_C8_amended_witness :
    rollDice (some 0) (some 4) (fun _ => [1])
        = rollDice (some 1) (some 4) (fun _ => [1]) ∧
    rollDice (some (-3)) (some 4) (fun _ => [1]) =
      { successes := 0, ones := 0, isCriticalFailure := false } := by
  have h := rollDice_C8_amended (some 4) (fun _ => [1]) (-3) (by norm_num)
  exact ⟨h.1, h.2.2.1⟩

/-- C10: `rollDice` returns normally for every numeric input: pools of 0 or
NaN are coerced to 1 (exactly one die is consumed), a strictly negative
pool consumes no dice and returns `successes = 0, ones = 0,
criticalFailure = false`, and a target number of 0 or NaN is coerced to 4.
(The embedding is a total function, mirroring the source, which contains no
throw on this path.) -/
theorem rollDice_C10 (pIn tIn : Option Int) (draw : Nat → List Nat)
    (q : Int) (hq : q < 0) :
    rollDice (some 0) tIn draw = rollDice (some 1) tIn draw ∧
    rollDice none tIn draw = rollDice (some 1) tIn draw ∧
    diceRolledCount (some 0) = 1 ∧
    diceRolledCount none = 1 ∧
    rollDice (some q) tIn draw =
      { successes := 0, ones := 0, isCriticalFailure := false } ∧
    diceRolledCount (some q) = 0 ∧
    rollDice pIn (some 0) draw = rollDice pIn (some 4) draw ∧
    rollDice pIn none draw = rollDice pIn (some 4) draw :=
  ⟨rollDice_zero_pool tIn draw, rollDice_nan_pool tIn draw, rfl, rfl,
    (rollDice_neg_pool tIn draw q hq).1, (rollDice_neg_pool tIn draw q hq).2,
    rollDice_zero_target pIn draw, rollDice_nan_target pIn draw⟩

/-- Witness for C10 at pool NaN, target NaN, negative pool `-2`. -/
theorem rollDice_C10_witness :
    rollDice none none (fun _ => [3]) = rollDice (some 1) none (fun _ => [3]) ∧
    rollDice (some (-2)) none (fun _ => [3]) =
      { successes := 0, ones := 0, isCriticalFailure := false } := by
  have h := rollDice_C10 none none (fun _ => [3]) (-2) (by norm_num)
  exact ⟨h.2.1, h.2.2.2.2.1⟩

/-- C7: initiative rolling is a plain additive roll: the new `initiative`
is the sum of the `initiativeDice` d6 faces plus `reaction` (no exploding
rule — the trace of each die is a single face), `actionPhases` is the phase
calculator applied to that total, and `hasRolled` becomes true.  With 3
dice and reaction 6 the total lies in `[9, 24]` and the phase list has
`⌈total/10⌉` entries. -/
theorem rollInitiative_C7 (c : Combatant) (draws : List Nat)
    (hlen : draws.length = c.initiativeDice)
    (hfaces : ∀ d ∈ draws, 1 ≤ d ∧ d ≤ 6) :
    (rollInitiativeForCombatant c draws).initiative
        = (draws.sum : Int) + c.reaction ∧
    (rollInitiativeForCombatant c draws).actionPhases
        = some (calculateActionPhases ((draws.sum : Int) + c.reaction)) ∧
    (rollInitiativeForCombatant c draws).hasRolled = true ∧
    (c.initiativeDice = 3 → c.reaction = 6 →
      9 ≤ (rollInitiativeForCombatant c draws).initiative ∧
      (rollInitiativeForCombatant c draws).initiative ≤ 24 ∧
      ((rollInitiativeForCombatant c draws).actionPhases.getD []).length
        = (((rollInitiativeForCombatant c draws).initiative + 9) / 10).toNat) := by
  have hsum := sum_faces_bounds draws hfaces
  refine ⟨rfl, rfl, rfl, ?_⟩
  intro h3 h6
  rw [h3] at hlen
  simp only [rollInitiativeForCombatant, Option.getD_some, h6]
  refine ⟨by omega, by omega, calculateActionPhases_length _⟩

/-- Witness for C7: 3 dice all showing 6, reaction 6 — total 24, phase list
`[24, 14, 4]` of length `⌈24/10⌉ = 3`. -/
theorem rollInitiative_C7_witness :
    9 ≤ (rollInitiativeForCombatant
        { id := 1, initiative := 0, initiativeDice := 3, reaction := 6,
          hasRolled := false, actionPhases := none, isNPC := false }
        [6, 6, 6]).initiative ∧
    ((rollInitiativeForCombatant
        { id := 1, initiative := 0, initiativeDice := 3, reaction := 6,
          hasRolled := false, actionPhases := none, isNPC := false }
        [6, 6, 6]).actionPhases.getD []).length
      = (((rollInitiativeForCombatant
          { id := 1, initiative := 0, initiativeDice := 3, reaction := 6,
            hasRolled := false, actionPhases := none, isNPC := false }
          [6, 6, 6]).initiative + 9) / 10).toNat := by
  have h := rollInitiative_C7
    { id := 1, initiative := 0, initiativeDice := 3, reaction := 6,
      hasRolled := false, actionPhases := none, isNPC := false }
    [6, 6, 6] rfl (by decide)
  exact ⟨(h.2.2.2 rfl rfl).1, (h.2.2.2 rfl rfl).2.2⟩

/-- C1 (code bug): `_onEditInitiative` sets `hasRolled = true` without
recomputing `actionPhases`, so editing the initiative of a freshly added
combatant to 5 yields `hasRolled = true` with an empty phase list and
breaks the §3 invariant `hasRolled ↔ (actionPhases ≠ [] ∧ 0 < initiative)`. -/
theorem editInitiative_C1_breaks_invariant :
    ((editInitiative editExampleTracker 1 (some 5)).combatants.map
        (fun c => (c.hasRolled, c.actionPhases.getD [], c.initiative)))
      = [(true, [], 5)] ∧
    ¬ (∀ c ∈ (editInitiative editExampleTracker 1 (some 5)).combatants,
        CombatantInvariant c) := by decide

/-- C5 counterexample: `_onResetCombat` does not clear `actionPhases` — a
rolled combatant with phase list `[5]` still carries `[5]` after reset, so
reset does not clear every combatant's `actionPhases` to the empty
sequence. -/
theorem resetCombat_C5_counterexample :
    ((resetCombat resetExampleTracker).combatants.map
        (fun c => c.actionPhases)) = [some [5]] ∧
    ¬ (∀ c ∈ (resetCombat resetExampleTracker).combatants,
        c.actionPhases.getD [] = []) := by decide

/-- C5 amended: from any state, reset returns the tracker to setup
(`isActive = false`, `currentPhase = 1`, `currentTurn = 0`), sets every
combatant's rolled total to 0 and `hasRolled` to false while leaving
`actionPhases` (and identity) untouched, removes no combatant, and is
idempotent. -/
theorem resetCombat_C5_amended (t : Tracker) :
    (resetCombat t).isActive = false ∧
    (resetCombat t).currentPhase = 1 ∧
    (resetCombat t).currentTurn = 0 ∧
    (resetCombat t).combatants.length = t.combatants.length ∧
    ((resetCombat t).combatants.map (fun c => c.initiative))
      = t.combatants.map (fun _ => 0) ∧
    ((resetCombat t).combatants.map (fun c => c.hasRolled))
      = t.combatants.map (fun _ => false) ∧
    ((resetCombat t).combatants.map (fun c => c.actionPhases))
      = t.combatants.map (fun c => c.actionPhases) ∧
    ((resetCombat t).combatants.map (fun c => c.id))
      = t.combatants.map (fun c => c.id) ∧
    resetCombat (resetCombat t) = resetCombat t := by
  refine ⟨rfl, rfl, rfl, ?_, ?_, ?_, ?_, ?_, ?_⟩
  · simp [resetCombat]
  · simp only [resetCombat, List.map_map]
    rfl
  · simp only [resetCombat, List.map_map]
    rfl
  · simp only [resetCombat, List.map_map]
    rfl
  · simp only [resetCombat, List.map_map]
    rfl
  · simp only [resetCombat, List.map_map]
    rfl

/-- C6 (code bug): `_onRemoveCombatant` clamps `currentTurn` against the
full roster length instead of the phase-eligible list.  In the active
combat `removeExampleTracker` (phase 2, turn 1, eligible list of the 25-
and 15-total combatants), removing the 15-total combatant (id 2) leaves
`currentTurn = 1` — the roster still has 2 entries, so no clamp fires —
while the eligible list for phase 2 now has a single entry, so the cursor
is no longer a valid index into it. -/
theorem removeCombatant_C6_stale_cursor :
    (removeCombatant removeExampleTracker 2 true true).currentTurn = 1 ∧
    (activeCombatantsForPhase
        (removeCombatant removeExampleTracker 2 true true)).length = 1 ∧
    ¬ ((removeCombatant removeExampleTracker 2 true true).currentTurn
        < (activeCombatantsForPhase
            (removeCombatant removeExampleTracker 2 true true)).length) := by
  decide

/-- C4: in the active state, `_onNextPhase` increments the phase and resets
the turn cursor; when the new phase's active list is non-empty the new
phase is kept (no announcement); when it is empty, the round rolls over to
phase 1 with a new-round announcement exactly when the incremented phase
exceeds `_getMaximumPhases()`, and otherwise the tracker stays on the empty
phase with a "no combatants act" announcement.  On a non-empty roster,
`maximumPhases` is `⌈max initiative / 10⌉`: `maxInitiative` is the maximum
of the combatants' rolled totals and `maximumPhases ≤ k ↔ maxInitiative ≤
10k` (the Galois characterisation of the ceiling of `m / 10`). -/
theorem nextPhase_C4 (t : Tracker) (hact : t.isActive = true) :
    (activeCombatantsForPhase
        { t with currentPhase := t.currentPhase + 1, currentTurn := 0 } ≠ [] →
      nextPhase t =
        ({ t with currentPhase := t.currentPhase + 1, currentTurn := 0 },
          none)) ∧
    (activeCombatantsForPhase
        { t with currentPhase := t.currentPhase + 1, currentTurn := 0 } = [] →
      maximumPhases t < t.currentPhase + 1 →
      nextPhase t =
        ({ t with currentPhase := 1, currentTurn := 0 },
          some RoundAnnouncement.newRound)) ∧
    (activeCombatantsForPhase
        { t with currentPhase := t.currentPhase + 1, currentTurn := 0 } = [] →
      t.currentPhase + 1 ≤ maximumPhases t →
      nextPhase t =
        ({ t with currentPhase := t.currentPhase + 1, currentTurn := 0 },
          some RoundAnnouncement.emptyPhase)) ∧
    (t.combatants ≠ [] →
      (∀ c ∈ t.combatants, c.initiative ≤ maxInitiative t) ∧
      (∃ c ∈ t.combatants, maxInitiative t = c.initiative) ∧
      (∀ k : Int, (maximumPhases t ≤ k ↔ maxInitiative t ≤ 10 * k))) := by
  have hactf : ¬ (t.isActive = false) := by
    rw [hact]
    simp
  refine ⟨?_, ?_, ?_, ?_⟩
  · intro hne
    have hlen : ¬ ((activeCombatantsForPhase
        { t with currentPhase := t.currentPhase + 1, currentTurn := 0 }).length
          = 0) :=
      fun hh => hne (List.length_eq_zero.mp hh)
    simp only [nextPhase]
    rw [if_neg hactf, if_neg hlen]
  · intro hemp hmax
    have hlen : (activeCombatantsForPhase
        { t with currentPhase := t.currentPhase + 1, currentTurn := 0 }).length
          = 0 := by
      rw [hemp]
      rfl
    have hmpr : maximumPhases
        { t with currentPhase := t.currentPhase + 1, currentTurn := 0 }
          = maximumPhases t := rfl
    simp only [nextPhase]
    rw [if_neg hactf, if_pos hlen, hmpr, if_pos hmax]
  · intro hemp hle
    have hlen : (activeCombatantsForPhase
        { t with currentPhase := t.currentPhase + 1, currentTurn := 0 }).length
          = 0 := by
      rw [hemp]
      rfl
    have hmax : ¬ (maximumPhases t < t.currentPhase + 1) := not_lt.mpr hle
    have hmpr : maximumPhases
        { t with currentPhase := t.currentPhase + 1, currentTurn := 0 }
          = maximumPhases t := rfl
    simp only [nextPhase]
    rw [if_neg hactf, if_pos hlen, hmpr, if_neg hmax]
  · intro hne
    obtain ⟨c0, cs, hcs⟩ := List.exists_cons_of_ne_nil hne
    have hmm : t.combatants.map (fun c => c.initiative)
        = c0.initiative :: cs.map (fun c => c.initiative) := by
      rw [hcs]
      rfl
    have hmax : maxInitiative t
        = (cs.map (fun c => c.initiative)).foldl max c0.initiative := by
      simp only [maxInitiative]
      rw [hmm]
    refine ⟨?_, ?_, ?_⟩
    · intro c hc
      rw [hmax]
      rw [hcs] at hc
      rcases List.mem_cons.mp hc with rfl | hc'
      · exact le_foldl_max _ _
      · exact mem_le_foldl_max _ _ _ (List.mem_map_of_mem _ hc')
    · rcases foldl_max_mem (cs.map (fun c => c.initiative)) c0.initiative
        with h | h
      · refine ⟨c0, by rw [hcs]; simp, by rw [hmax, h]⟩
      · obtain ⟨c, hcmem, hceq⟩ := List.mem_map.mp h
        refine ⟨c, by rw [hcs]; simp [hcmem], by rw [hmax, ← hceq]⟩
    · intro k
      have hmp : maximumPhases t = (maxInitiative t + 9) / 10 := by
        simp only [maximumPhases]
        rw [if_neg hne]
      rw [hmp]
      omega

/-- Witness for C4: a single combatant acting only on phase 5's band
(`actionPhases = [5]`), active on phase 1 — advancing the phase finds phase
2 empty and `2 > maximumPhases = 1`, so the tracker rolls over to a new
round. -/
theorem nextPhase_C4_witness :
    nextPhase nextPhaseExampleTracker =
      ({ nextPhaseExampleTracker with currentPhase := 1, currentTurn := 0 },
        some RoundAnnouncement.newRound) := by
  have h := nextPhase_C4 nextPhaseExampleTracker rfl
  exact h.2.1 (by decide) (by decide)

end SR2

/-! Sanity examples (executable checks of the embedding). -/

example : SR2.calculateActionPhases 27 = [27, 17, 7] := by decide

example : SR2.calculateActionPhases 10 = [10] := by decide

example : SR2.calculateActionPhases 1 = [1] := by decide

example : SR2.calculateActionPhases 0 = [] := by decide

example : SR2.calculateActionPhases (-5) = [] := by decide

example : SR2.calculateActionPhasesSafe (some 27) = [27, 17, 7] := by decide

example : SR2.calculateActionPhasesSafe none = [1] := by decide

example : SR2.calculateActionPhasesSafe (some (-4)) = [1] := by decide

example :
    SR2.rollDice (some 2) (some 4) (fun i => if i = 0 then [6, 3] else [1]) =
      { successes := 1, ones := 1, isCriticalFailure := false } := by decide

example :
    SR2.rollDice (some 0) (some 4) (fun _ => [1]) =
      { successes := 0, ones := 1, isCriticalFailure := true } := by decide

example :
    SR2.rollDice (some (-3)) (some 4) (fun _ => [1]) =
      { successes := 0, ones := 0, isCriticalFailure := false } := by decide
